import Mathlib

/-!
# Verification of the konnektr-io/graph-explorer query-result pipeline

Shallow embedding of the table-projection and graph-model code of the
repository (FlatColumnsView.tsx, SimpleTableView.tsx, GroupedColumnsView,
GraphViewer.tsx), together with proofs of the specification claims about
column derivation, graph construction, edge merging and node expansion.
-/

namespace GraphExplorer

/-- JSON values as they appear in query result rows. -/
inductive JValue where
  | jNull : JValue
  | jBool : Bool → JValue
  | jNum : Int → JValue
  | jStr : String → JValue
  | jArr : List JValue → JValue
  | jObj : List (String × JValue) → JValue

open JValue

/-- JavaScript typeof, restricted to JSON-representable values.
Note typeof null = "object" and typeof array = "object". -/
def jsTypeof : JValue → String
  | jNull => "object"
  | jBool _ => "boolean"
  | jNum _ => "number"
  | jStr _ => "string"
  | jArr _ => "object"
  | jObj _ => "object"

/-- The row filter used by FlatColumnsView / GroupedColumnsView / the
column collectors: `typeof row === "object" && row !== null`. -/
def keptRow (v : JValue) : Bool :=
  jsTypeof v == "object" && !(match v with | jNull => true | _ => false)

/-- Field lookup on an assoc list (first match), mirroring a JS object
property read: present key gives its value, absent key gives undefined
(`none`). -/
def lookupField : List (String × JValue) → String → Option JValue
  | [], _ => none
  | (k, v) :: fs, key => if k = key then some v else lookupField fs key

/-- `(row as Record<string, unknown>)[key]`: property read on a value that
is not null. Objects use field lookup; arrays and primitives give
undefined for a (non-index) string key. `none` is JS undefined. -/
def jsLookup (v : JValue) (key : String) : Option JValue :=
  match v with
  | jObj fs => lookupField fs key
  | _ => none

/-- `Object.keys`, as used on rows that passed the `typeof` filter:
an object gives its keys in order, an array its index strings. -/
def jsObjectKeys : JValue → List String
  | jObj fs => fs.map Prod.fst
  | jArr xs => (List.range xs.length).map toString
  | _ => []

/-- Append a key to the accumulator unless already present: the effect of
inserting into a JS `Set` and reading back in insertion order. -/
def addKeyIfAbsent (acc : List String) (k : String) : List String :=
  if k ∈ acc then acc else acc ++ [k]

/-- One row's contribution to SimpleTableView's key set: keys of
object-typed rows only. -/
def simpleKeysStep (acc : List String) (row : JValue) : List String :=
  if keptRow row then (jsObjectKeys row).foldl addKeyIfAbsent acc else acc

/-- SimpleTableView.getAllColumnKeys: collect every key of every
object-typed row into a set, then sort. -/
def getAllColumnKeys (results : List JValue) : List String :=
  List.insertionSort (· ≤ ·) (results.foldl simpleKeysStep [])

/-- SimpleTableView renders one table row per result row, with no filter:
the table body is `results.map (...)`. -/
def simpleBodyRows (results : List JValue) : List JValue :=
  results

/-- String lookup of a field whose value must be a string. -/
def strField (fs : List (String × JValue)) (k : String) : Option String :=
  match lookupField fs k with
  | some (jStr s) => some s
  | _ => none

/-- Modelled from the spec: the Entity Classifier
(src/utils/dataStructureDetector.ts) is imported by the table views but its
source is not provided. Per §4.2, Twin recognition: an object carrying the
recognized unique-identity field (`$dtId`) and the recognized metadata field
naming its model (`$metadata`). -/
def isTwinLike : JValue → Bool
  | jObj fs => (strField fs "$dtId").isSome && (lookupField fs "$metadata").isSome
  | _ => false

/-- Modelled from the spec (§4.2): Relationship recognition — an object
carrying the recognized relationship-id, source-id and target-id fields. -/
def isRelationshipLike : JValue → Bool
  | jObj fs =>
      (strField fs "$relationshipId").isSome &&
      (strField fs "$sourceId").isSome &&
      (strField fs "$targetId").isSome
  | _ => false

/-- The recognized system-metadata fields excluded from an entity's
property bag. -/
def systemFields : List String := ["$metadata", "$etag"]

/-- Modelled from the spec: getEntityProperties
(src/utils/dataStructureDetector.ts, source not provided) — the entity's
fields minus the recognized system-metadata fields, in original key order
(§4.2), keeping the identity field, which per §4.3(b) appears as a
flattened column (FlatColumnsView and GroupedColumnsView both style the
`$dtId` property key specially, and the collapsed summary reads
`entityProps["$dtId"]`); total over arbitrary values, returning `[]` for
undefined and non-objects (§7 totality requirement). -/
def getEntityProperties (v : Option JValue) : List (String × JValue) :=
  match v with
  | some (jObj fs) => fs.filter (fun kv => kv.1 ∉ systemFields)
  | _ => []

/-- The property keys of a (possibly undefined) entity value. -/
def entityPropKeys (v : Option JValue) : List String :=
  (getEntityProperties v).map Prod.fst

/-- Modelled from the spec: getEntityColumns
(src/utils/dataStructureDetector.ts, source not provided) — the ordered,
de-duplicated list of top-level row keys whose value classifies as Twin or
Relationship in at least one row, in first-seen order (§4.1). -/
def getEntityColumns (results : List JValue) : List String :=
  results.foldl
    (fun acc row =>
      match row with
      | jObj fs =>
          fs.foldl
            (fun a kv =>
              if isTwinLike kv.2 || isRelationshipLike kv.2 then
                addKeyIfAbsent a kv.1
              else a)
            acc
      | _ => acc)
    []

/-- One row's contribution to the per-entity-column key set of
FlatColumnsView.getAllEntityPropertiesByColumn. -/
def flatKeysStep (col : String) (acc : List String) (row : JValue) :
    List String :=
  if keptRow row then
    (entityPropKeys (jsLookup row col)).foldl addKeyIfAbsent acc
  else acc

/-- FlatColumnsView.getAllEntityPropertiesByColumn, restricted to one
entity column: the union of the property keys of `row[col]` over all
object-typed rows, collected into a set and sorted. GroupedColumnsView
contains the identical collector. -/
def getAllEntityPropertiesByColumn (results : List JValue) (col : String) :
    List String :=
  List.insertionSort (· ≤ ·) (results.foldl (flatKeysStep col) [])

/-- FlatColumnsView header row: for each entity column, one column head per
sorted property key, labelled `entityColumn.propertyKey`, groups
contiguous in entity-column order. -/
def flatHeader (results : List JValue) : List String :=
  (getEntityColumns results).flatMap
    (fun c =>
      (getAllEntityPropertiesByColumn results c).map (fun p => c ++ "." ++ p))

/-- The value rendered in the flat projection's cell for (row, col, prop):
undefined (`none`) when the row lacks the entity or the entity lacks the
property, in which case the cell renders the placeholder dash. -/
def flatCellValue (row : JValue) (col prop : String) : Option JValue :=
  lookupField (getEntityProperties (jsLookup row col)) prop

/-- FlatColumnsView table body: rows failing the
`typeof row !== "object" || row === null` filter render `null` (no table
row); the rest each render one table row. -/
def flatBodyRows (results : List JValue) : List JValue :=
  results.filter (fun r => keptRow r)

/-- GroupedColumnsView table body: the identical row filter. -/
def groupedBodyRows (results : List JValue) : List JValue :=
  results.filter (fun r => keptRow r)

mutual

/-- JavaScript String(x) for JSON-representable values: null prints as
"null", arrays join their elements with commas (null elements print
empty), objects print as "[object Object]". -/
def jsToString : JValue → String
  | jNull => "null"
  | jBool b => cond b "true" "false"
  | jNum n => toString n
  | jStr s => s
  | jArr xs => String.intercalate "," (jsArrElems xs)
  | jObj _ => "[object Object]"

def jsArrElems : List JValue → List String
  | [] => []
  | jNull :: xs => "" :: jsArrElems xs
  | x :: xs => jsToString x :: jsArrElems xs

end

/-- GroupedColumnsView collapsed summary cell: looks up the `$dtId` key in
the entity's property bag and renders `String(dtId)` when defined, else
the empty string. -/
def collapsedSummary (entity : Option JValue) : String :=
  match lookupField (getEntityProperties entity) "$dtId" with
  | some v => jsToString v
  | none => ""

/-- Property access on a possibly-null value, error-instrumented: in JS,
reading a property of `null` throws a TypeError; every other read
succeeds (possibly as undefined). -/
def jsLookupE (v : JValue) (key : String) : Except String (Option JValue) :=
  match v with
  | jNull => Except.error "TypeError: cannot read properties of null"
  | _ => Except.ok (jsLookup v key)

/-- `Object.keys`, error-instrumented: throws on null, succeeds on
everything else. -/
def jsObjectKeysE (v : JValue) : Except String (List String) :=
  match v with
  | jNull => Except.error "TypeError: Object.keys called on null"
  | _ => Except.ok (jsObjectKeys v)

/-- The simple-view key-collection step with every throwing JS primitive
made explicit in the Except monad, mirroring the source's
guard-then-access structure. -/
def simpleKeysStepE (acc : List String) (row : JValue) :
    Except String (List String) := do
  if keptRow row then
    let ks ← jsObjectKeysE row
    pure (ks.foldl addKeyIfAbsent acc)
  else
    pure acc

/-- getAllColumnKeys with every throwing JS primitive made explicit. -/
def getAllColumnKeysE (results : List JValue) : Except String (List String) := do
  let keys ← results.foldlM simpleKeysStepE []
  pure (List.insertionSort (· ≤ ·) keys)

/-- The per-entity-column key-collection step with every throwing JS
primitive made explicit in the Except monad. -/
def flatKeysStepE (col : String) (acc : List String) (row : JValue) :
    Except String (List String) := do
  if keptRow row then
    let entity ← jsLookupE row col
    pure ((entityPropKeys entity).foldl addKeyIfAbsent acc)
  else
    pure acc

/-- getAllEntityPropertiesByColumn with every throwing JS primitive made
explicit. -/
def getAllEntityPropertiesByColumnE (results : List JValue) (col : String) :
    Except String (List String) := do
  let keys ← results.foldlM (flatKeysStepE col) []
  pure (List.insertionSort (· ≤ ·) keys)

/-! ## Graph model (GraphViewer.tsx over graphology) -/

/-- The twin payload as the graph code consumes it: its id and optional
model string (`$metadata.$model`). -/
structure BasicDigitalTwin where
  dtId : String
  model : Option String
  deriving DecidableEq

/-- The relationship payload as the graph code consumes it. -/
structure BasicRelationship where
  relationshipId : String
  sourceId : String
  targetId : String
  relationshipName : Option String
  deriving DecidableEq

/-- One edge of the graphology graph: its key and endpoints. -/
structure GEdge where
  key : String
  source : String
  target : String
  label : String
  deriving DecidableEq

/-- The graphology graph as GraphViewer uses it: node ids and keyed
edges. -/
structure GModel where
  nodeIds : List String
  edges : List GEdge
  deriving DecidableEq

def GModel.empty : GModel := ⟨[], []⟩

def hasNode (g : GModel) (id : String) : Bool :=
  g.nodeIds.contains id

def hasEdge (g : GModel) (key : String) : Bool :=
  g.edges.any (fun e => e.key == key)

/-- graphology `graph.addNode`: throws when the node already exists. -/
def addNode (g : GModel) (id : String) : Except String GModel :=
  if hasNode g id then Except.error "UsageGraphError: node already exists"
  else Except.ok { g with nodeIds := g.nodeIds ++ [id] }

/-- graphology `graph.addEdgeWithKey`: throws when the edge key already
exists or an endpoint node is absent. -/
def addEdgeWithKey (g : GModel) (key source target label : String) :
    Except String GModel :=
  if hasEdge g key then Except.error "UsageGraphError: edge already exists"
  else if !hasNode g source then Except.error "UsageGraphError: source not found"
  else if !hasNode g target then Except.error "UsageGraphError: target not found"
  else Except.ok { g with edges := g.edges ++ [⟨key, source, target, label⟩] }

/-- The label attached to an edge: `rel.$relationshipName || "relationship"`. -/
def relLabel (rel : BasicRelationship) : String :=
  rel.relationshipName.getD "relationship"

/-- GraphViewer initial node build: `twins.forEach(graph.addNode(...))`,
with no try/catch — a duplicate id would propagate the graphology error. -/
def addTwinNodes (g : GModel) (twins : List BasicDigitalTwin) :
    Except String GModel :=
  twins.foldlM (fun g t => addNode g t.dtId) g

/-- GraphViewer initial edge build step: add the relationship only when
both endpoints are present, with the add wrapped in try/catch (a duplicate
edge key is swallowed and skipped). -/
def addRelInitial (g : GModel) (rel : BasicRelationship) : GModel :=
  if hasNode g rel.sourceId && hasNode g rel.targetId then
    match addEdgeWithKey g rel.relationshipId rel.sourceId rel.targetId
        (relLabel rel) with
    | Except.ok g2 => g2
    | Except.error _ => g
  else g

/-- GraphViewer initial build: all twin nodes, then all relationship
edges. -/
def buildGraph (twins : List BasicDigitalTwin) (rels : List BasicRelationship) :
    Except String GModel :=
  (addTwinNodes GModel.empty twins).map (fun g => rels.foldl addRelInitial g)

/-- The relationship-merge step shared by the auto-fetch merge and the
expansion edge step: guard on both endpoints present and the edge key not
yet present, then add inside try/catch. -/
def mergeRelGuarded (g : GModel) (rel : BasicRelationship) : GModel :=
  if hasNode g rel.sourceId && hasNode g rel.targetId &&
      !hasEdge g rel.relationshipId then
    match addEdgeWithKey g rel.relationshipId rel.sourceId rel.targetId
        (relLabel rel) with
    | Except.ok g2 => g2
    | Except.error _ => g
  else g

/-- The auto-fetch relationship merge: fold the guarded merge step over the
fetched relationships. -/
def autoFetchMerge (g : GModel) (rels : List BasicRelationship) : GModel :=
  rels.foldl mergeRelGuarded g

/-- The ids connected to the expanded node by the fetched relationships,
collected into a Set (first-seen order, deduplicated, the expanded node
itself excluded). -/
def connectedTwinIds (nodeId : String) (rels : List BasicRelationship) :
    List String :=
  rels.foldl
    (fun acc rel =>
      let acc1 :=
        if rel.sourceId ≠ nodeId then addKeyIfAbsent acc rel.sourceId else acc
      if rel.targetId ≠ nodeId then addKeyIfAbsent acc1 rel.targetId else acc1)
    []

/-- One iteration of the expansion neighbor loop: a connected id already
present is skipped; otherwise the twin is fetched and added, the iteration
wrapped in try/catch so a failed fetch is skipped and the loop continues.
The second component traces the twin ids for which a fetch was issued. -/
def expandStep (fetchTwin : String → Except String BasicDigitalTwin)
    (st : GModel × List String) (tid : String) : GModel × List String :=
  if hasNode st.1 tid then st
  else
    match fetchTwin tid with
    | Except.error _ => (st.1, st.2 ++ [tid])
    | Except.ok _twin =>
        match addNode st.1 tid with
        | Except.ok g2 => (g2, st.2 ++ [tid])
        | Except.error _ => (st.1, st.2 ++ [tid])

/-- The graph component of one expansion-loop iteration. -/
def expandStepG (fetchTwin : String → Except String BasicDigitalTwin)
    (g : GModel) (tid : String) : GModel :=
  if hasNode g tid then g
  else
    match fetchTwin tid with
    | Except.error _ => g
    | Except.ok _twin =>
        match addNode g tid with
        | Except.ok g2 => g2
        | Except.error _ => g

/-- Expansion neighbor loop: fold the per-id step over the connected ids,
returning the updated graph and the list of issued twin fetches. -/
def expandAddNodes (fetchTwin : String → Except String BasicDigitalTwin)
    (g : GModel) (ids : List String) : GModel × List String :=
  ids.foldl (expandStep fetchTwin) (g, [])

/-- The external collaborators an expansion talks to. -/
structure ExpandOracles where
  queryRelationships : String → Except String (List BasicRelationship)
  getTwinById : String → Except String BasicDigitalTwin

/-- GraphViewer component state relevant to expansion. -/
structure GraphState where
  graph : GModel
  expanded : List String
  deriving DecidableEq

/-- A network request issued during expansion. -/
inductive FetchEvent where
  | relsOf : String → FetchEvent
  | twinOf : String → FetchEvent
  deriving DecidableEq

/-- GraphViewer.handleNodeDoubleClick: a no-op when the node is already
expanded; otherwise marks it expanded, fetches its relationships (the
outer catch swallows a failure there), fetches and adds missing neighbor
twins one by one, then merges the relationships as guarded edges. Returns
the new state and the trace of fetches issued. -/
def handleNodeDoubleClick (o : ExpandOracles) (st : GraphState)
    (nodeId : String) : GraphState × List FetchEvent :=
  if nodeId ∈ st.expanded then (st, [])
  else
    let expanded1 := st.expanded ++ [nodeId]
    match o.queryRelationships nodeId with
    | Except.error _ => (⟨st.graph, expanded1⟩, [FetchEvent.relsOf nodeId])
    | Except.ok rels =>
        let ids := connectedTwinIds nodeId rels
        let r := expandAddNodes o.getTwinById st.graph ids
        let g3 := autoFetchMerge r.1 rels
        (⟨g3, expanded1⟩,
          FetchEvent.relsOf nodeId :: r.2.map FetchEvent.twinOf)

/-! ## Results → graph transformation (spec-modelled) -/

/-- A twin payload extracted from a classified twin-like JSON value. -/
def twinOfValue : JValue → Option BasicDigitalTwin
  | jObj fs =>
      match strField fs "$dtId", lookupField fs "$metadata" with
      | some id, some meta =>
          some ⟨id,
            match meta with
            | jObj ms => strField ms "$model"
            | _ => none⟩
      | _, _ => none
  | _ => none

/-- A relationship payload extracted from a classified relationship-like
JSON value. -/
def relOfValue : JValue → Option BasicRelationship
  | jObj fs =>
      match strField fs "$relationshipId", strField fs "$sourceId",
          strField fs "$targetId" with
      | some rid, some sid, some tid =>
          some ⟨rid, sid, tid, strField fs "$relationshipName"⟩
      | _, _, _ => none
  | _ => none

/-- Modelled from the spec: the twin-extraction half of
transformResultsToGraph (src/utils/queryResultsTransformer.ts, source not
provided) — every Twin-classified value across all rows, a row being
either itself a twin or a composite object whose top-level values may be
twins (§4.4). -/
def rowTwinValues (row : JValue) : List BasicDigitalTwin :=
  match twinOfValue row with
  | some t => [t]
  | none =>
      match row with
      | jObj fs => fs.filterMap (fun kv => twinOfValue kv.2)
      | _ => []

def collectTwins (results : List JValue) : List BasicDigitalTwin :=
  results.flatMap rowTwinValues

/-- Modelled from the spec: the relationship-extraction half of
transformResultsToGraph — every Relationship-classified value across all
rows (§4.4). -/
def rowRelValues (row : JValue) : List BasicRelationship :=
  match relOfValue row with
  | some r => [r]
  | none =>
      match row with
      | jObj fs => fs.filterMap (fun kv => relOfValue kv.2)
      | _ => []

def collectRels (results : List JValue) : List BasicRelationship :=
  results.flatMap rowRelValues

/-- Modelled from the spec: transformResultsToGraph deduplicates the
extracted twins by identity key — a twin appearing in multiple rows or
columns yields exactly one entry (§4.4), so re-adding the same node id
downstream never happens and is thus a no-op of the build, not an error. -/
def dedupStep (acc : List BasicDigitalTwin) (t : BasicDigitalTwin) :
    List BasicDigitalTwin :=
  if acc.any (fun u => u.dtId == t.dtId) then acc else acc ++ [t]

def dedupTwinsById (ts : List BasicDigitalTwin) : List BasicDigitalTwin :=
  ts.foldl dedupStep []

/-- The initial graph built from a raw results sequence: extract, dedup,
then run GraphViewer's initial build. -/
def buildInitialFromResults (results : List JValue) : Except String GModel :=
  buildGraph (dedupTwinsById (collectTwins results)) (collectRels results)

/-- Every edge's endpoints are present as nodes (no dangling edges),
as a decidable check. -/
def noDangling (g : GModel) : Bool :=
  g.edges.all (fun e => hasNode g e.source && hasNode g e.target)

/-- The number of edges of the graph carrying a given edge key. -/
def countEdgesWithKey (g : GModel) (key : String) : Nat :=
  (g.edges.filter (fun e => e.key == key)).length

/-- A value that is a JSON object or a JSON array (the values whose JS
`typeof` is "object" other than null). -/
def isObjOrArr : JValue → Bool
  | jObj _ => true
  | jArr _ => true
  | _ => false

/-! ## Concrete demonstration values -/

def demoTwinAFields : List (String × JValue) :=
  [("$dtId", jStr "t1"),
   ("$metadata", jObj [("$model", jStr "Building")]),
   ("name", jStr "A"), ("temp", jNum 20)]

def demoTwinA : JValue := jObj demoTwinAFields

def demoTwinB : JValue :=
  jObj [("$dtId", jStr "t2"),
        ("$metadata", jObj [("$model", jStr "Building")]),
        ("name", jStr "B"), ("humidity", jNum 50)]

def demoRelFields : List (String × JValue) :=
  [("$relationshipId", jStr "r1"), ("$sourceId", jStr "t1"),
   ("$targetId", jStr "t2"), ("name", jStr "contains")]

def demoRel : JValue := jObj demoRelFields

/-- Two composite rows with the same entity column but different property
sets, plus one row whose object lacks the entity column. -/
def demoResults : List JValue :=
  [jObj [("twin", demoTwinA)], jObj [("twin", demoTwinB)],
   jObj [("other", jNum 1)]]

def demoFetchTwin (i : String) : Except String BasicDigitalTwin :=
  if i == "t9" then Except.error "network failure" else Except.ok ⟨i, none⟩

def demoFailingOracles : ExpandOracles :=
  ⟨fun _ => Except.error "network failure", demoFetchTwin⟩

def demoGraphT1 : GModel := ⟨["t1"], []⟩

end GraphExplorer

/-!
## Theorems
-/

namespace GraphExplorer

open JValue

/-! ### List and fold helpers -/

theorem mem_addKeyIfAbsent {acc : List String} {k k' : String} :
    k ∈ addKeyIfAbsent acc k' ↔ k ∈ acc ∨ k = k' := by
  unfold addKeyIfAbsent
  split
  · rename_i h
    constructor
    · exact Or.inl
    · rintro (h1 | rfl)
      · exact h1
      · exact h
  · simp

theorem mem_foldl_addKeyIfAbsent {l : List String} {acc : List String}
    {k : String} :
    k ∈ l.foldl addKeyIfAbsent acc ↔ k ∈ acc ∨ k ∈ l := by
  induction l generalizing acc with
  | nil => simp
  | cons x xs ih =>
      rw [List.foldl_cons, ih, mem_addKeyIfAbsent]
      simp only [List.mem_cons]
      tauto

theorem lookupField_filter_not_excluded {fs : List (String × JValue)}
    {excluded : List String} {k : String} (hk : k ∉ excluded) :
    lookupField (fs.filter (fun kv => kv.1 ∉ excluded)) k = lookupField fs k := by
  induction fs with
  | nil => rfl
  | cons kv fs ih =>
      obtain ⟨k1, v1⟩ := kv
      rw [List.filter_cons]
      by_cases hkv : k1 ∈ excluded
      · have hne : ¬ k1 = k := fun h => hk (h ▸ hkv)
        rw [if_neg (by simp [hkv])]
        rw [ih]
        simp [lookupField, hne]
      · rw [if_pos (by simp [hkv])]
        by_cases h1 : k1 = k
        · simp [lookupField, h1]
        · simp only [lookupField, if_neg h1]
          simpa using ih

theorem mem_foldl_flatKeysStep {results : List JValue} {col : String}
    {acc : List String} {k : String} :
    k ∈ results.foldl (flatKeysStep col) acc ↔
      k ∈ acc ∨ ∃ row, row ∈ results ∧ keptRow row = true ∧
        k ∈ entityPropKeys (jsLookup row col) := by
  induction results generalizing acc with
  | nil => simp
  | cons r rs ih =>
      rw [List.foldl_cons, ih]
      by_cases hr : keptRow r
      · rw [flatKeysStep, if_pos hr, mem_foldl_addKeyIfAbsent]
        simp only [List.mem_cons]
        constructor
        · rintro ((h | h) | ⟨row, hm, hk1, hk2⟩)
          · exact Or.inl h
          · exact Or.inr ⟨r, Or.inl rfl, hr, h⟩
          · exact Or.inr ⟨row, Or.inr hm, hk1, hk2⟩
        · rintro (h | ⟨row, (rfl | hm), hk1, hk2⟩)
          · exact Or.inl (Or.inl h)
          · exact Or.inl (Or.inr hk2)
          · exact Or.inr ⟨row, hm, hk1, hk2⟩
      · rw [flatKeysStep, if_neg hr]
        simp only [List.mem_cons]
        constructor
        · rintro (h | ⟨row, hm, hk1, hk2⟩)
          · exact Or.inl h
          · exact Or.inr ⟨row, Or.inr hm, hk1, hk2⟩
        · rintro (h | ⟨row, (rfl | hm), hk1, hk2⟩)
          · exact Or.inl h
          · exact absurd hk1 (by simpa using hr)
          · exact Or.inr ⟨row, hm, hk1, hk2⟩

/-! ### C1 — flat-columns column derivation -/

/-- C1: for every results array and entity column, the flat-columns
projection's per-column key set contains exactly the property keys
observed for that entity column across the (object-typed) rows — no silent
drops, no phantom columns — the keys are sorted within the group, every
observed key appears in the header as `entityColumn.propertyKey` (headers
grouped by entity column), and a row lacking the entity renders an empty
(undefined) cell for each of the column's properties rather than dropping
the column. -/
theorem flat_columns_complete_and_no_phantom (results : List JValue)
    (c : String) :
    ((getAllEntityPropertiesByColumn results c).Sorted (· ≤ ·)) ∧
    (∀ k, k ∈ getAllEntityPropertiesByColumn results c ↔
      ∃ row, row ∈ results ∧ keptRow row = true ∧
        k ∈ entityPropKeys (jsLookup row c)) ∧
    (c ∈ getEntityColumns results →
      ∀ k ∈ getAllEntityPropertiesByColumn results c,
        (c ++ "." ++ k) ∈ flatHeader results) ∧
    (∀ row ∈ results, keptRow row = true → jsLookup row c = none →
      ∀ p, flatCellValue row c p = none) := by
  refine ⟨List.sorted_insertionSort _ _, ?_, ?_, ?_⟩
  · intro k
    unfold getAllEntityPropertiesByColumn
    rw [(List.perm_insertionSort _ _).mem_iff, mem_foldl_flatKeysStep]
    simp
  · intro hc k hk
    unfold flatHeader
    exact List.mem_flatMap.mpr ⟨c, hc, List.mem_map.mpr ⟨k, hk, rfl⟩⟩
  · intro row _ _ hnone p
    unfold flatCellValue
    rw [hnone]
    rfl

/-- C1 witness: on the three demo rows, the property key "humidity"
observed only in the second row appears in the header as
"twin.humidity", and a kept row lacking the "twin" entity renders an
undefined cell for its "name" column. -/
theorem flat_columns_witness :
    ("twin" ++ "." ++ "humidity") ∈ flatHeader demoResults ∧
    flatCellValue (jObj [("other", jNum 1)]) "twin" "name" = none := by
  constructor
  · have hmem : "humidity" ∈ getAllEntityPropertiesByColumn demoResults "twin" :=
      ((flat_columns_complete_and_no_phantom demoResults "twin").2.1
        "humidity").mpr
        ⟨jObj [("twin", demoTwinB)],
         List.Mem.tail _ (List.Mem.head _), rfl, by decide⟩
    exact (flat_columns_complete_and_no_phantom demoResults "twin").2.2.1
      (by decide) "humidity" hmem
  · exact (flat_columns_complete_and_no_phantom demoResults "twin").2.2.2
      (jObj [("other", jNum 1)])
      (List.Mem.tail _ (List.Mem.tail _ (List.Mem.head _)))
      rfl rfl "name"

/-! ### C7 — totality of the column-derivation functions -/

theorem foldlM_ok_of_step {α β : Type} (f : β → α → Except String β)
    (g : β → α → β) (h : ∀ b a, f b a = Except.ok (g b a)) :
    ∀ (l : List α) (b : β), l.foldlM f b = Except.ok (l.foldl g b) := by
  intro l
  induction l with
  | nil => intro b; rfl
  | cons x xs ih =>
      intro b
      rw [List.foldlM_cons, h, List.foldl_cons]
      show xs.foldlM f (g b x) = _
      exact ih (g b x)

theorem simpleKeysStepE_ok (acc : List String) (row : JValue) :
    simpleKeysStepE acc row = Except.ok (simpleKeysStep acc row) := by
  cases row <;> rfl

theorem flatKeysStepE_ok (col : String) (acc : List String) (row : JValue) :
    flatKeysStepE col acc row = Except.ok (flatKeysStep col acc row) := by
  cases row <;> rfl

/-- C7: for every JSON results array, however heterogeneous or malformed
its rows (bare scalars, null, arrays, objects of any shape), the
simple-view distinct-key collection and the flat/grouped per-entity-column
property-key collection complete without throwing: with every throwing JS
primitive (property reads and Object.keys on null) made explicit, both
collectors return Ok with their pure results. -/
theorem projection_column_derivation_total (results : List JValue)
    (col : String) :
    getAllColumnKeysE results = Except.ok (getAllColumnKeys results) ∧
    getAllEntityPropertiesByColumnE results col =
      Except.ok (getAllEntityPropertiesByColumn results col) := by
  constructor
  · unfold getAllColumnKeysE getAllColumnKeys
    rw [foldlM_ok_of_step simpleKeysStepE simpleKeysStep simpleKeysStepE_ok]
    rfl
  · unfold getAllEntityPropertiesByColumnE getAllEntityPropertiesByColumn
    rw [foldlM_ok_of_step (flatKeysStepE col) (flatKeysStep col)
      (flatKeysStepE_ok col)]
    rfl

/-! ### C8 — simple projection on bare scalar rows -/

/-- C8 counterexample: for the results sequence [42, 17, 99] the simple
projection's column list is empty, not of length one, so the claim that it
has exactly one column fails at this concrete input. -/
theorem simple_scalar_one_column_cex :
    ¬ ((getAllColumnKeys [jNum 42, jNum 17, jNum 99]).length = 1 ∧
       (simpleBodyRows [jNum 42, jNum 17, jNum 99]).length = 3) := by
  intro h
  have h1 := h.1
  have : getAllColumnKeys [jNum 42, jNum 17, jNum 99] = [] := by decide
  rw [this] at h1
  exact absurd h1 (by decide)

/-- C8 (amended): for the results sequence [42, 17, 99] (three bare scalar
rows), the simple table projection has zero columns (bare scalar rows
contribute no object keys) and renders three table rows, each with no
cells. -/
theorem simple_scalar_projection :
    getAllColumnKeys [jNum 42, jNum 17, jNum 99] = [] ∧
    (simpleBodyRows [jNum 42, jNum 17, jNum 99]).length = 3 := by
  constructor
  · decide
  · rfl

/-! ### C9 — grouped view collapsed summary -/

/-- C9 counterexample: a Relationship-classified entity in a collapsed
group renders an empty summary cell, not its relationship id "r1", so the
claim fails at this concrete input. -/
theorem collapsed_summary_relationship_cex :
    isRelationshipLike demoRel = true ∧
    collapsedSummary (some demoRel) = "" ∧
    collapsedSummary (some demoRel) ≠ "r1" := by
  refine ⟨rfl, rfl, ?_⟩
  intro h
  exact absurd h (by decide)

/-- C9 (amended): in the grouped-columns projection, a collapsed group's
summary cell shows the entity's `$dtId` property value when the entity has
one (the twin id for a Twin-classified entity), and the empty string when
the entity has no `$dtId` field — in particular a Relationship-classified
entity shows an empty summary, not its relationship id. -/
theorem collapsed_summary_shows_dtId (fs : List (String × JValue)) :
    (∀ s, lookupField fs "$dtId" = some (jStr s) →
      collapsedSummary (some (jObj fs)) = s) ∧
    (lookupField fs "$dtId" = none →
      collapsedSummary (some (jObj fs)) = "") := by
  have hlk : lookupField (getEntityProperties (some (jObj fs))) "$dtId" =
      lookupField fs "$dtId" := by
    show lookupField (fs.filter (fun kv => kv.1 ∉ systemFields)) "$dtId" =
      lookupField fs "$dtId"
    exact lookupField_filter_not_excluded (by decide)
  constructor
  · intro s hs
    unfold collapsedSummary
    rw [hlk, hs]
    rfl
  · intro hs
    unfold collapsedSummary
    rw [hlk, hs]

/-- C9 witness: the amended behavior at concrete inputs — a twin with
`$dtId = "t1"` summarizes as "t1", and the demo relationship (which has no
`$dtId` field) summarizes as the empty string. -/
theorem collapsed_summary_shows_dtId_witness :
    collapsedSummary (some (jObj demoTwinAFields)) = "t1" ∧
    collapsedSummary (some (jObj demoRelFields)) = "" :=
  ⟨(collapsed_summary_shows_dtId demoTwinAFields).1 "t1" rfl,
   (collapsed_summary_shows_dtId demoRelFields).2 rfl⟩

/-! ### C10 — row filter of the flat and grouped bodies -/

/-- C10 counterexample: an array row is not a JSON object, yet it passes
the `typeof row === "object" && row !== null` filter and produces a table
row in both the flat-columns and grouped-columns bodies. -/
theorem row_filter_array_cex :
    (flatBodyRows [jArr []]).length = 1 ∧
    (groupedBodyRows [jArr []]).length = 1 := by
  constructor <;> rfl

/-- C10 (amended): the flat-columns and grouped-columns bodies keep exactly
the rows that are JSON objects or JSON arrays (JS typeof "object",
non-null); rows that are null or bare scalars are silently skipped, while
an array row still produces a (blank) table row. -/
theorem row_filter_keeps_objects_and_arrays (results : List JValue)
    (v : JValue) :
    flatBodyRows results = results.filter isObjOrArr ∧
    groupedBodyRows results = results.filter isObjOrArr ∧
    keptRow v = isObjOrArr v := by
  have hk : ∀ w : JValue, keptRow w = isObjOrArr w := by
    intro w
    cases w <;> rfl
  refine ⟨?_, ?_, hk v⟩
  · unfold flatBodyRows
    exact List.filter_congr (fun w _ => hk w)
  · unfold groupedBodyRows
    exact List.filter_congr (fun w _ => hk w)

/-! ### Graph helpers -/

theorem hasNode_iff {g : GModel} {id : String} :
    hasNode g id = true ↔ id ∈ g.nodeIds := by
  simp [hasNode]

theorem hasEdge_eq_false {g : GModel} {key : String}
    (h : hasEdge g key = false) :
    ∀ e ∈ g.edges, (e.key == key) = false := by
  intro e he
  by_contra hc
  have : hasEdge g key = true := by
    unfold hasEdge
    rw [List.any_eq_true]
    exact ⟨e, he, by simpa using hc⟩
  rw [h] at this
  exact absurd this (by simp)

theorem noDangling_iff {g : GModel} :
    noDangling g = true ↔
      ∀ e ∈ g.edges, e.source ∈ g.nodeIds ∧ e.target ∈ g.nodeIds := by
  simp [noDangling, List.all_eq_true, hasNode]

/-- The normal form of the guarded relationship-merge step: append the
edge when both endpoints are present and the key is fresh, otherwise the
graph is unchanged. -/
theorem mergeRelGuarded_eq (g : GModel) (rel : BasicRelationship) :
    mergeRelGuarded g rel =
      if hasNode g rel.sourceId && hasNode g rel.targetId &&
          !hasEdge g rel.relationshipId then
        { g with edges := g.edges ++
            [⟨rel.relationshipId, rel.sourceId, rel.targetId, relLabel rel⟩] }
      else g := by
  unfold mergeRelGuarded
  split
  · rename_i h
    simp only [Bool.and_eq_true, Bool.not_eq_true'] at h
    obtain ⟨⟨hs, ht⟩, he⟩ := h
    simp [addEdgeWithKey, hs, ht, he]
  · rfl

theorem nodeIds_mergeRelGuarded (g : GModel) (rel : BasicRelationship) :
    (mergeRelGuarded g rel).nodeIds = g.nodeIds := by
  rw [mergeRelGuarded_eq]
  split <;> rfl

theorem noDangling_mergeRelGuarded {g : GModel} (rel : BasicRelationship)
    (h : noDangling g = true) :
    noDangling (mergeRelGuarded g rel) = true := by
  rw [mergeRelGuarded_eq]
  split
  · rename_i hc
    simp only [Bool.and_eq_true, Bool.not_eq_true'] at hc
    obtain ⟨⟨hs, ht⟩, _⟩ := hc
    rw [noDangling_iff]
    intro e he
    rw [List.mem_append] at he
    rcases he with he | he
    · exact (noDangling_iff.mp h) e he
    · rw [List.mem_singleton] at he
      subst he
      exact ⟨hasNode_iff.mp hs, hasNode_iff.mp ht⟩
  · exact h

theorem noDangling_autoFetchMerge {g : GModel}
    (rels : List BasicRelationship) (h : noDangling g = true) :
    noDangling (autoFetchMerge g rels) = true := by
  unfold autoFetchMerge
  induction rels generalizing g with
  | nil => exact h
  | cons r rs ih =>
      rw [List.foldl_cons]
      exact ih (noDangling_mergeRelGuarded r h)

theorem addRelInitial_eq_merge (g : GModel) (rel : BasicRelationship) :
    addRelInitial g rel = mergeRelGuarded g rel := by
  unfold addRelInitial mergeRelGuarded addEdgeWithKey
  cases hs : hasNode g rel.sourceId <;>
    cases ht : hasNode g rel.targetId <;>
      cases he : hasEdge g rel.relationshipId <;> simp [hs, ht, he]

theorem addNode_ok {g : GModel} {id : String} {g' : GModel}
    (h : addNode g id = Except.ok g') :
    g'.nodeIds = g.nodeIds ++ [id] ∧ g'.edges = g.edges := by
  unfold addNode at h
  split at h
  · exact absurd h (by simp)
  · cases h
    exact ⟨rfl, rfl⟩

theorem addTwinNodes_ok {twins : List BasicDigitalTwin} {g g' : GModel}
    (h : addTwinNodes g twins = Except.ok g') :
    g'.edges = g.edges := by
  induction twins generalizing g with
  | nil =>
      cases h
      rfl
  | cons t ts ih =>
      unfold addTwinNodes at h
      rw [List.foldlM_cons] at h
      cases ha : addNode g t.dtId with
      | error e =>
          rw [ha] at h
          have hfalse : (Except.error e : Except String GModel) =
              Except.ok g' := h
          cases hfalse
      | ok g1 =>
          rw [ha] at h
          have h2 : addTwinNodes g1 ts = Except.ok g' := h
          rw [ih h2, (addNode_ok ha).2]

theorem nodeIds_foldRelInitial (rels : List BasicRelationship) :
    ∀ g : GModel, (rels.foldl addRelInitial g).nodeIds = g.nodeIds := by
  induction rels with
  | nil => intro g; rfl
  | cons r rs ih =>
      intro g
      rw [List.foldl_cons, ih, addRelInitial_eq_merge, nodeIds_mergeRelGuarded]

theorem noDangling_foldRelInitial (rels : List BasicRelationship) :
    ∀ g : GModel, noDangling g = true →
      noDangling (rels.foldl addRelInitial g) = true := by
  induction rels with
  | nil => intro g h; exact h
  | cons r rs ih =>
      intro g h
      rw [List.foldl_cons, addRelInitial_eq_merge]
      exact ih _ (noDangling_mergeRelGuarded r h)

theorem expandStepG_edges (f : String → Except String BasicDigitalTwin)
    (g : GModel) (tid : String) :
    (expandStepG f g tid).edges = g.edges := by
  unfold expandStepG
  split
  · rfl
  · cases hf : f tid with
    | error e => rfl
    | ok t =>
        cases ha : addNode g tid with
        | error e => simp [ha]
        | ok g2 => simp [ha, (addNode_ok ha).2]

theorem expandStepG_nodes (f : String → Except String BasicDigitalTwin)
    (g : GModel) (tid : String) :
    ∀ x ∈ g.nodeIds, x ∈ (expandStepG f g tid).nodeIds := by
  intro x hx
  unfold expandStepG
  split
  · exact hx
  · cases hf : f tid with
    | error e => exact hx
    | ok t =>
        cases ha : addNode g tid with
        | error e => simp [ha]; exact hx
        | ok g2 =>
            simp only [ha]
            rw [(addNode_ok ha).1]
            exact List.mem_append_left _ hx

theorem expandFoldG_edges (f : String → Except String BasicDigitalTwin)
    (ids : List String) :
    ∀ g : GModel, (ids.foldl (expandStepG f) g).edges = g.edges := by
  induction ids with
  | nil => intro g; rfl
  | cons i is ih =>
      intro g
      rw [List.foldl_cons, ih, expandStepG_edges]

theorem expandFoldG_nodes (f : String → Except String BasicDigitalTwin)
    (ids : List String) :
    ∀ g : GModel, ∀ x ∈ g.nodeIds, x ∈ (ids.foldl (expandStepG f) g).nodeIds := by
  induction ids with
  | nil => intro g x hx; exact hx
  | cons i is ih =>
      intro g x hx
      rw [List.foldl_cons]
      exact ih _ x (expandStepG_nodes f g i x hx)

theorem noDangling_mono {g g' : GModel} (he : g'.edges = g.edges)
    (hn : ∀ x ∈ g.nodeIds, x ∈ g'.nodeIds) (h : noDangling g = true) :
    noDangling g' = true := by
  rw [noDangling_iff] at h ⊢
  rw [he]
  intro e hme
  exact ⟨hn _ (h e hme).1, hn _ (h e hme).2⟩

theorem expandStep_fst (f : String → Except String BasicDigitalTwin)
    (st : GModel × List String) (tid : String) :
    (expandStep f st tid).1 = expandStepG f st.1 tid := by
  unfold expandStep expandStepG
  split
  · rfl
  · cases hf : f tid with
    | error e => rfl
    | ok t =>
        cases ha : addNode st.1 tid with
        | error e => simp [ha]
        | ok g2 => simp [ha]

theorem expandAddNodes_fst (f : String → Except String BasicDigitalTwin)
    (g : GModel) (ids : List String) :
    (expandAddNodes f g ids).1 = ids.foldl (expandStepG f) g := by
  unfold expandAddNodes
  suffices h : ∀ st : GModel × List String,
      (ids.foldl (expandStep f) st).1 = ids.foldl (expandStepG f) st.1 by
    exact h (g, [])
  induction ids with
  | nil => intro st; rfl
  | cons i is ih =>
      intro st
      rw [List.foldl_cons, List.foldl_cons, ih, expandStep_fst]

theorem handleDC_of_mem {o : ExpandOracles} {st : GraphState}
    {nodeId : String} (h : nodeId ∈ st.expanded) :
    handleNodeDoubleClick o st nodeId = (st, []) := by
  unfold handleNodeDoubleClick
  rw [if_pos h]

/-! ### C2 — no dangling edges -/

/-- C2: after the initial graph build, after the auto-fetch relationship
merge, and after any node expansion, every edge's source and target are
present as nodes, and a relationship whose endpoints are not both present
is dropped by the merge step. -/
theorem graph_no_dangling_edges (twins : List BasicDigitalTwin)
    (rels rels2 : List BasicRelationship) (g g0 : GModel)
    (rel : BasicRelationship) (o : ExpandOracles) (st : GraphState)
    (nodeId : String) :
    (buildGraph twins rels = Except.ok g → noDangling g = true) ∧
    (noDangling g0 = true → noDangling (autoFetchMerge g0 rels2) = true) ∧
    (noDangling st.graph = true →
      noDangling (handleNodeDoubleClick o st nodeId).1.graph = true) ∧
    ((hasNode g0 rel.sourceId && hasNode g0 rel.targetId) = false →
      mergeRelGuarded g0 rel = g0) := by
  refine ⟨?_, ?_, ?_, ?_⟩
  · intro h
    unfold buildGraph at h
    cases ha : addTwinNodes GModel.empty twins with
    | error e =>
        rw [ha] at h
        cases h
    | ok g1 =>
        rw [ha] at h
        have hg : g = rels.foldl addRelInitial g1 := by
          cases h
          rfl
        subst hg
        apply noDangling_foldRelInitial
        have he : g1.edges = [] := addTwinNodes_ok ha
        rw [noDangling_iff, he]
        intro e he'
        cases he'
  · exact noDangling_autoFetchMerge rels2
  · intro h
    unfold handleNodeDoubleClick
    split
    · exact h
    · cases hq : o.queryRelationships nodeId with
      | error e => exact h
      | ok rels3 =>
          show noDangling (autoFetchMerge
            (expandAddNodes o.getTwinById st.graph
              (connectedTwinIds nodeId rels3)).1 rels3) = true
          apply noDangling_autoFetchMerge
          rw [expandAddNodes_fst]
          exact noDangling_mono
            (expandFoldG_edges o.getTwinById _ st.graph)
            (expandFoldG_nodes o.getTwinById _ st.graph) h
  · intro h
    rw [mergeRelGuarded_eq]
    have : (hasNode g0 rel.sourceId && hasNode g0 rel.targetId &&
        !hasEdge g0 rel.relationshipId) = false := by
      rw [h]
      rfl
    rw [this]
    rfl

/-- C2 witness: Scenario 6 — one twin t1 and a relationship r1 from t1 to
the never-fetched t9 build a graph with a single node and no edges; the
auto-fetch merge of the same relationship also leaves it dangling-free,
the expansion entry point preserves the invariant, and the merge step
drops the endpoint-missing relationship. -/
theorem graph_no_dangling_witness :
    noDangling demoGraphT1 = true ∧
    noDangling (autoFetchMerge demoGraphT1 [⟨"r1", "t1", "t9", none⟩]) = true ∧
    noDangling (handleNodeDoubleClick demoFailingOracles
      ⟨demoGraphT1, []⟩ "t1").1.graph = true ∧
    mergeRelGuarded demoGraphT1 ⟨"r1", "t1", "t9", none⟩ = demoGraphT1 := by
  have h := graph_no_dangling_edges [⟨"t1", none⟩] [⟨"r1", "t1", "t9", none⟩]
    [⟨"r1", "t1", "t9", none⟩] demoGraphT1 demoGraphT1 ⟨"r1", "t1", "t9", none⟩
    demoFailingOracles ⟨demoGraphT1, []⟩ "t1"
  exact ⟨h.1 rfl, h.2.1 rfl, h.2.2.1 rfl, h.2.2.2 rfl⟩

/-! ### C3 — initial build deduplicates twins by identity key -/

theorem addTwinNodes_succeeds :
    ∀ (twins : List BasicDigitalTwin) (g : GModel),
      (twins.map BasicDigitalTwin.dtId).Nodup →
      (∀ t ∈ twins, t.dtId ∉ g.nodeIds) →
      addTwinNodes g twins =
        Except.ok ⟨g.nodeIds ++ twins.map BasicDigitalTwin.dtId, g.edges⟩ := by
  intro twins
  induction twins with
  | nil =>
      intro g _ _
      show Except.ok g = _
      rw [List.map_nil, List.append_nil]
  | cons t ts ih =>
      intro g hnd hnotin
      have hn : hasNode g t.dtId = false := by
        rw [← Bool.not_eq_true, hasNode_iff]
        exact hnotin t (List.Mem.head _)
      have ha : addNode g t.dtId =
          Except.ok ⟨g.nodeIds ++ [t.dtId], g.edges⟩ := by
        unfold addNode
        rw [hn]
        rfl
      unfold addTwinNodes
      rw [List.foldlM_cons, ha]
      rw [List.map_cons] at hnd
      have hhead : t.dtId ∉ ts.map BasicDigitalTwin.dtId :=
        (List.nodup_cons.mp hnd).1
      have htail : (ts.map BasicDigitalTwin.dtId).Nodup :=
        (List.nodup_cons.mp hnd).2
      have hnotin2 : ∀ u ∈ ts, u.dtId ∉ g.nodeIds ++ [t.dtId] := by
        intro u hu
        rw [List.mem_append, List.mem_singleton]
        rintro (h1 | h2)
        · exact hnotin u (List.Mem.tail _ hu) h1
        · exact hhead (h2 ▸ List.mem_map.mpr ⟨u, hu, rfl⟩)
      show addTwinNodes ⟨g.nodeIds ++ [t.dtId], g.edges⟩ ts = _
      rw [ih ⟨g.nodeIds ++ [t.dtId], g.edges⟩ htail hnotin2]
      rw [List.map_cons]
      congr 1
      show GModel.mk ((g.nodeIds ++ [t.dtId]) ++ ts.map BasicDigitalTwin.dtId)
        g.edges = _
      rw [List.append_assoc]
      rfl

theorem dedupFold_mem :
    ∀ (ts acc : List BasicDigitalTwin) (id : String),
      (id ∈ (ts.foldl dedupStep acc).map BasicDigitalTwin.dtId ↔
        id ∈ acc.map BasicDigitalTwin.dtId ∨
          id ∈ ts.map BasicDigitalTwin.dtId) := by
  intro ts
  induction ts with
  | nil =>
      intro acc id
      simp
  | cons t ts ih =>
      intro acc id
      rw [List.foldl_cons, ih, List.map_cons, List.mem_cons]
      unfold dedupStep
      split
      · rename_i hany
        have hmem : t.dtId ∈ acc.map BasicDigitalTwin.dtId := by
          rw [List.any_eq_true] at hany
          obtain ⟨u, hu, hbeq⟩ := hany
          exact List.mem_map.mpr ⟨u, hu, (by simpa using hbeq : u.dtId = t.dtId)⟩
        constructor
        · rintro (h | h)
          · exact Or.inl h
          · exact Or.inr (Or.inr h)
        · rintro (h | h | h)
          · exact Or.inl h
          · exact Or.inl (h ▸ hmem)
          · exact Or.inr h
      · rw [List.map_append, List.mem_append]
        constructor
        · rintro ((h | h) | h)
          · exact Or.inl h
          · exact Or.inr (Or.inl (List.mem_singleton.mp h))
          · exact Or.inr (Or.inr h)
        · rintro (h | h | h)
          · exact Or.inl (Or.inl h)
          · exact Or.inl (Or.inr (List.mem_singleton.mpr h))
          · exact Or.inr h

theorem dedupFold_nodup :
    ∀ (ts acc : List BasicDigitalTwin),
      (acc.map BasicDigitalTwin.dtId).Nodup →
      ((ts.foldl dedupStep acc).map BasicDigitalTwin.dtId).Nodup := by
  intro ts
  induction ts with
  | nil => intro acc h; exact h
  | cons t ts ih =>
      intro acc h
      rw [List.foldl_cons]
      apply ih
      unfold dedupStep
      split
      · exact h
      · rename_i hany
        have hnot : t.dtId ∉ acc.map BasicDigitalTwin.dtId := by
          intro hmem
          apply hany
          rw [List.any_eq_true]
          obtain ⟨u, hu, he⟩ := List.mem_map.mp hmem
          exact ⟨u, hu, by simp [he]⟩
        rw [List.map_append]
        refine List.Nodup.append h (List.nodup_singleton _) ?_
        intro x hx hx'
        simp only [List.map_cons, List.map_nil, List.mem_singleton] at hx'
        exact hnot (hx' ▸ hx)

/-- C3: building the initial graph from a results sequence succeeds for
every results array (twin occurrences are deduplicated by identity key
before node insertion, so a repeated identity key is a no-op of the build,
not an error), and the resulting node ids are exactly the distinct twin
identity keys of the result set — their count is the number of distinct
keys, not the number of twin occurrences. -/
theorem initial_build_dedup_nodes (results : List JValue) :
    ∃ g, buildInitialFromResults results = Except.ok g ∧
      g.nodeIds =
        (dedupTwinsById (collectTwins results)).map BasicDigitalTwin.dtId ∧
      g.nodeIds.Nodup ∧
      g.nodeIds.length =
        ((collectTwins results).map BasicDigitalTwin.dtId).toFinset.card := by
  have hnd : ((dedupTwinsById (collectTwins results)).map
      BasicDigitalTwin.dtId).Nodup :=
    dedupFold_nodup _ [] (by simp)
  have hbuild := addTwinNodes_succeeds (dedupTwinsById (collectTwins results))
    GModel.empty hnd (by intro t _ h; cases h)
  refine ⟨(collectRels results).foldl addRelInitial
    ⟨(dedupTwinsById (collectTwins results)).map BasicDigitalTwin.dtId, []⟩,
    ?_, ?_, ?_⟩
  · unfold buildInitialFromResults buildGraph
    rw [hbuild]
    rfl
  · rw [nodeIds_foldRelInitial]
  · constructor
    · rw [nodeIds_foldRelInitial]
      exact hnd
    · rw [nodeIds_foldRelInitial]
      show ((dedupTwinsById (collectTwins results)).map
        BasicDigitalTwin.dtId).length = _
      have hset : ((dedupTwinsById (collectTwins results)).map
          BasicDigitalTwin.dtId).toFinset =
          ((collectTwins results).map BasicDigitalTwin.dtId).toFinset := by
        ext x
        simp only [List.mem_toFinset]
        unfold dedupTwinsById
        rw [dedupFold_mem]
        simp
      rw [← hset]
      exact (List.toFinset_card_of_nodup hnd).symm

/-! ### C4 — idempotent relationship merge -/

/-- C4: merging the same relationship payload twice produces the same
graph as merging it once (the duplicate edge key is silently skipped and
the merge step never throws), and when both endpoints are present and the
key is fresh the merged graph holds exactly one edge with that
relationship id. -/
theorem merge_relationship_idempotent (g : GModel)
    (rel : BasicRelationship) :
    mergeRelGuarded (mergeRelGuarded g rel) rel = mergeRelGuarded g rel ∧
    (hasNode g rel.sourceId = true → hasNode g rel.targetId = true →
      hasEdge g rel.relationshipId = false →
      countEdgesWithKey (mergeRelGuarded g rel) rel.relationshipId = 1) := by
  constructor
  · rw [mergeRelGuarded_eq g rel]
    split
    · rename_i h
      simp only [Bool.and_eq_true, Bool.not_eq_true'] at h
      obtain ⟨⟨hs, ht⟩, he⟩ := h
      rw [mergeRelGuarded_eq]
      have hedge : hasEdge
          { g with edges := g.edges ++
              [⟨rel.relationshipId, rel.sourceId, rel.targetId,
                relLabel rel⟩] }
          rel.relationshipId = true := by
        unfold hasEdge
        rw [List.any_eq_true]
        exact ⟨⟨rel.relationshipId, rel.sourceId, rel.targetId, relLabel rel⟩,
          List.mem_append_right _ (List.Mem.head _), by simp⟩
      rw [hedge]
      simp
    · rename_i h
      rw [mergeRelGuarded_eq]
      rw [if_neg h]
  · intro hs ht he
    rw [mergeRelGuarded_eq]
    rw [hs, ht, he]
    show countEdgesWithKey
      { g with edges := g.edges ++
          [⟨rel.relationshipId, rel.sourceId, rel.targetId, relLabel rel⟩] }
      rel.relationshipId = 1
    unfold countEdgesWithKey
    show (List.filter _ (g.edges ++ _)).length = 1
    rw [List.filter_append]
    have h0 : g.edges.filter (fun e => e.key == rel.relationshipId) = [] := by
      rw [List.filter_eq_nil_iff]
      intro e he'
      rw [hasEdge_eq_false he e he']
      simp
    rw [h0]
    simp

/-- C4 witness: on a two-node graph merging the fresh relationship r1
yields exactly one r1 edge. -/
theorem merge_relationship_idempotent_witness :
    countEdgesWithKey
      (mergeRelGuarded ⟨["t1", "t2"], []⟩ ⟨"r1", "t1", "t2", none⟩) "r1" = 1 :=
  (merge_relationship_idempotent ⟨["t1", "t2"], []⟩
    ⟨"r1", "t1", "t2", none⟩).2 rfl rfl rfl

/-! ### C5 — expansion is idempotent per node -/

/-- C5: after a double-click expansion of a node the node is marked
expanded, and a second expansion of the same node without an intervening
result change is a complete no-op — it returns the same state (graph node
and edge counts unchanged) and issues no fetches. -/
theorem expand_node_idempotent (o : ExpandOracles) (st : GraphState)
    (nodeId : String) :
    nodeId ∈ (handleNodeDoubleClick o st nodeId).1.expanded ∧
    handleNodeDoubleClick o (handleNodeDoubleClick o st nodeId).1 nodeId =
      ((handleNodeDoubleClick o st nodeId).1, []) := by
  have hmem : nodeId ∈ (handleNodeDoubleClick o st nodeId).1.expanded := by
    unfold handleNodeDoubleClick
    split
    · rename_i h
      exact h
    · cases hq : o.queryRelationships nodeId with
      | error e => exact List.mem_append_right _ (List.Mem.head _)
      | ok rels3 => exact List.mem_append_right _ (List.Mem.head _)
  exact ⟨hmem, handleDC_of_mem hmem⟩

/-! ### C6 — one failed fetch is skipped, the rest proceeds -/

theorem expandFoldG_skip {f : String → Except String BasicDigitalTwin}
    {bad msg : String} (h : f bad = Except.error msg) :
    ∀ (ids : List String) (g : GModel),
      ids.foldl (expandStepG f) g =
        (ids.filter (fun i => i != bad)).foldl (expandStepG f) g := by
  intro ids
  induction ids with
  | nil => intro g; rfl
  | cons i is ih =>
      intro g
      rw [List.foldl_cons, List.filter_cons]
      by_cases hi : i = bad
      · subst hi
        rw [if_neg (by simp)]
        have hstep : expandStepG f g i = g := by
          unfold expandStepG
          split
          · rfl
          · rw [h]
        rw [hstep]
        exact ih g
      · rw [if_pos (by simpa using hi), List.foldl_cons]
        exact ih _

/-- C6: during node expansion a failed neighbor-twin fetch is skipped and
the remaining expansion set is still processed — the resulting graph
equals the one obtained with the failing id removed — and a failed
relationship fetch leaves the graph untouched (the node is still marked
expanded, no error escapes). -/
theorem expansion_single_failure_skipped
    (f : String → Except String BasicDigitalTwin) (g : GModel)
    (ids : List String) (bad msg : String) (o : ExpandOracles)
    (st : GraphState) (nodeId emsg : String) :
    (f bad = Except.error msg →
      (expandAddNodes f g ids).1 =
        (expandAddNodes f g (ids.filter (fun i => i != bad))).1) ∧
    (o.queryRelationships nodeId = Except.error emsg →
      nodeId ∉ st.expanded →
      handleNodeDoubleClick o st nodeId =
        (⟨st.graph, st.expanded ++ [nodeId]⟩, [FetchEvent.relsOf nodeId])) := by
  constructor
  · intro h
    rw [expandAddNodes_fst, expandAddNodes_fst]
    exact expandFoldG_skip h ids g
  · intro hq hmem
    unfold handleNodeDoubleClick
    rw [if_neg hmem, hq]

/-- C6 witness: with a fetcher failing only on t9, expanding over
[t8, t9, t7] produces the same graph as expanding over [t8, t7]; and a
failing relationship query leaves the graph unchanged while marking the
node expanded. -/
theorem expansion_single_failure_witness :
    (expandAddNodes demoFetchTwin demoGraphT1 ["t8", "t9", "t7"]).1 =
      (expandAddNodes demoFetchTwin demoGraphT1
        (["t8", "t9", "t7"].filter (fun i => i != "t9"))).1 ∧
    handleNodeDoubleClick demoFailingOracles ⟨demoGraphT1, []⟩ "t1" =
      (⟨demoGraphT1, ["t1"]⟩, [FetchEvent.relsOf "t1"]) := by
  have h := expansion_single_failure_skipped demoFetchTwin demoGraphT1
    ["t8", "t9", "t7"] "t9" "network failure" demoFailingOracles
    ⟨demoGraphT1, []⟩ "t1" "network failure"
  exact ⟨h.1 rfl, h.2 rfl (by simp)⟩

end GraphExplorer
